import Mathlib

/-!
Verification of the core pipeline of the NLP voice-command automation system
(classifier, entity extractor, authorizer, mapper, orchestrator), shallowly
embedded from the Python sources `src/nlu.py`, `src/mapper.py`,
`src/processor.py` and the record types of `src/config.py`.

Modelling conventions:
* Python dicts are ordered association lists with CPython assignment/update
  semantics (`dictInsert` / `dictUpdate`) and first-occurrence key access
  (`dictGet`);
* floats are rationals, `round(x, 3)` is `round3` (round half to even);
* fallible collaborator calls guarded by `try/except` in the orchestrator are
  `Except`-valued parameters;
* JSON dictionaries produced by the mapper and the orchestrator are
  `List (String × JVal)`.
-/

namespace VoiceCmd

/-- JSON-like values appearing in command and pipeline-result dictionaries. -/
inductive JVal where
  | str : String → JVal
  | num : ℚ → JVal
  | obj : List (String × JVal) → JVal

/-- Python dict access `d[k]` / `d.get(k)` (keys are unique in a dict, so the
first matching entry is the entry). -/
def dictGet (d : List (String × α)) (k : String) : Option α :=
  match d with
  | [] => none
  | p :: rest => if p.1 = k then some p.2 else dictGet rest k

/-- CPython dict assignment `d[k] = v`: overwrite the entry in place when the
key already exists, otherwise append the new pair at the end. -/
def dictInsert (d : List (String × α)) (k : String) (v : α) : List (String × α) :=
  match d with
  | [] => [(k, v)]
  | p :: rest => if p.1 = k then (k, v) :: rest else p :: dictInsert rest k v

/-- CPython `d.update(e)`: assign every pair of `e` into `d`, in order. -/
def dictUpdate (d e : List (String × α)) : List (String × α) :=
  e.foldl (fun acc p => dictInsert acc p.1 p.2) d

/-- The `CommandMapping` record of `config.py`. -/
structure CommandMapping where
  intent : String
  command_type : String
  parameters : List (String × String)
  description : String

/-- The `IntentPattern` record of `config.py`. -/
structure IntentPattern where
  intent : String
  patterns : List String
  actions : List (String × String)

/-- Round a rational to the nearest integer, ties to even (CPython `round`
applied to an exactly-representable value). -/
def roundHalfEven (q : ℚ) : ℤ :=
  if q - ⌊q⌋ < 1/2 then ⌊q⌋
  else if 1/2 < q - ⌊q⌋ then ⌊q⌋ + 1
  else if ⌊q⌋ % 2 = 0 then ⌊q⌋ else ⌊q⌋ + 1

/-- Python `round(q, 3)`. -/
def round3 (q : ℚ) : ℚ := (roundHalfEven (1000 * q) : ℚ) / 1000

/-- `CommandMapper._create_error_response` (`mapper.py` lines 81-106): the
error command returned for an unknown intent. `now` stands for
`datetime.utcnow().isoformat()`. -/
def create_error_response (intent : String) (confidence : ℚ)
    (transcribed_text : String) (now : String) : List (String × JVal) :=
  [("timestamp", JVal.str now),
   ("command_type", JVal.str "error"),
   ("intent", JVal.str intent),
   ("confidence", JVal.num (round3 confidence)),
   ("transcribed_text", JVal.str transcribed_text),
   ("parameters", JVal.obj []),
   ("error", JVal.str ("Unknown intent: " ++ intent)),
   ("status", JVal.str "rejected")]

/-- `CommandMapper._merge_parameters` (`mapper.py` lines 63-79):
`merged = base_params.copy(); merged.update(entity_params); return merged`. -/
def merge_parameters (base_params entity_params : List (String × String)) :
    List (String × String) :=
  dictUpdate base_params entity_params

/-- `CommandMapper.map_intent_to_command` (`mapper.py` lines 23-61).
`commands_config` is the mapper's command table; `now` stands for
`datetime.utcnow().isoformat()`. -/
def map_intent_to_command (commands_config : List (String × CommandMapping))
    (intent : String) (confidence : ℚ) (entities : List (String × String))
    (transcribed_text : String) (now : String) : List (String × JVal) :=
  match dictGet commands_config intent with
  | none => create_error_response intent confidence transcribed_text now
  | some command_mapping =>
      [("timestamp", JVal.str now),
       ("command_type", JVal.str command_mapping.command_type),
       ("intent", JVal.str intent),
       ("confidence", JVal.num (round3 confidence)),
       ("transcribed_text", JVal.str transcribed_text),
       ("parameters", JVal.obj
         ((merge_parameters command_mapping.parameters entities).map
           (fun p => (p.1, JVal.str p.2)))),
       ("description", JVal.str command_mapping.description),
       ("status", JVal.str "authorized")]

/-- `CommandMapper.validate_command` (`mapper.py` lines 108-132): the four
required fields must be present, and the `confidence` entry must be a number
in `[0, 1]`. -/
def validate_command (command_json : List (String × JVal)) : Bool :=
  if (["command_type", "intent", "confidence", "timestamp"].any
      (fun f => (dictGet command_json f).isNone)) then
    false
  else
    match dictGet command_json "confidence" with
    | some (JVal.num q) => decide (0 ≤ q) && decide (q ≤ 1)
    | _ => false

/-- `CommandAuthorizationManager.is_authorized` (`mapper.py` lines 165-182):
`intent in self.authorized_intents and confidence >= min_confidence`. -/
def is_authorized (authorized_intents : List String) (intent : String)
    (confidence min_confidence : ℚ) : Bool :=
  authorized_intents.contains intent && decide (min_confidence ≤ confidence)

/-- Python `str.lower()`, modelled character-wise (ASCII case mapping). -/
def pyLower (s : String) : String := ⟨s.data.map Char.toLower⟩

/-- Bool test that `pat` occurs contiguously inside `s` (character lists). -/
def charsContain (pat : List Char) : List Char → Bool
  | [] => pat.isEmpty
  | c :: rest => pat.isPrefixOf (c :: rest) || charsContain pat rest

/-- Python substring containment `pat in s`. -/
def strIn (pat s : String) : Bool := charsContain pat.data s.data

/-- Helper for `pySplit`: walk the characters, accumulating the current word
reversed. -/
def splitWordsAux : List Char → List Char → List String
  | [], acc => if acc.isEmpty then [] else [⟨acc.reverse⟩]
  | c :: rest, acc =>
      if c.isWhitespace then
        (if acc.isEmpty then [] else [⟨acc.reverse⟩]) ++ splitWordsAux rest []
      else splitWordsAux rest (c :: acc)

/-- Python `str.split()` with no argument: split on whitespace, dropping the
empty pieces produced by runs of whitespace and by the ends. -/
def pySplit (s : String) : List String := splitWordsAux s.data []

/-- The distinct elements of a list (the elements of the Python set built
from the list); an element repeated later is kept only once. -/
def distinct : List String → List String
  | [] => []
  | x :: rest => if rest.contains x then distinct rest else x :: distinct rest

/-- Cardinality of `set(xs) & set(ys)` for Python word sets. -/
def setInterCard (xs ys : List String) : Nat :=
  ((distinct xs).filter (fun w => ys.contains w)).length

/-- Cardinality of `set(xs)`. -/
def setCard (xs : List String) : Nat := (distinct xs).length

/-- The word-overlap score of `_keyword_match`'s inner loop (`nlu.py` lines
121-126): `len(text_words & pattern_words) / max(len(pattern_words), 1)`. -/
def overlap_score (text_lower pattern : String) : ℚ :=
  let pattern_lower := pyLower pattern
  let text_words := pySplit text_lower
  let pattern_words := pySplit pattern_lower
  (setInterCard text_words pattern_words : ℚ) /
    ((max (setCard pattern_words) 1 : ℕ) : ℚ)

/-- `NLUEngine._keyword_match` (`nlu.py` lines 113-132): best word-overlap
score across all intents' patterns, updated only on strict improvement from
the initial `("unknown", 0.0)`, with the final score clamped by
`min(best_score, 1.0)`. -/
def keyword_match (intents_config : List (String × IntentPattern))
    (text : String) : String × ℚ :=
  let text_lower := pyLower text
  let best := intents_config.foldl (fun b ip =>
    ip.2.patterns.foldl (fun b2 pattern =>
      let score := overlap_score text_lower pattern
      if b2.2 < score then (ip.1, score) else b2) b) ("unknown", 0)
  (best.1, min best.2 1)

/-- All `(intent, overlap score)` pairs scanned by `_keyword_match`, in
configuration iteration order. -/
def flat_scores (intents_config : List (String × IntentPattern))
    (text : String) : List (String × ℚ) :=
  intents_config.flatMap (fun ip =>
    ip.2.patterns.map (fun pattern => (ip.1, overlap_score (pyLower text) pattern)))

/-- The maximum word-overlap score reached by `_keyword_match` (0 when no
pattern scores positively). -/
def max_flat_score (intents_config : List (String × IntentPattern))
    (text : String) : ℚ :=
  (flat_scores intents_config text).foldl (fun m s => max m s.2) 0

/-- `NLUEngine.extract_entities` (`nlu.py` lines 134-152): scans every
configured intent's `actions` mapping and assigns `entities[key] = value`
whenever the key — as configured, not lower-cased — occurs as a substring of
the lower-cased input text. -/
def extract_entities (intents_config : List (String × IntentPattern))
    (text : String) : List (String × String) :=
  let text_lower := pyLower text
  intents_config.foldl (fun entities ip =>
    ip.2.actions.foldl (fun entities2 kv =>
      if strIn kv.1 text_lower then dictInsert entities2 kv.1 kv.2 else entities2)
      entities) []

/-- Modelled from the spec's wording of the EntityExtractor (§4.2), for
comparison with `extract_entities`: here the key is lower-cased before the
substring test ("if the lower-cased key appears as a substring of the
lower-cased input text"). -/
def extract_entities_specver (intents_config : List (String × IntentPattern))
    (text : String) : List (String × String) :=
  let text_lower := pyLower text
  intents_config.foldl (fun entities ip =>
    ip.2.actions.foldl (fun entities2 kv =>
      if strIn (pyLower kv.1) text_lower then dictInsert entities2 kv.1 kv.2
      else entities2)
      entities) []

/-- All `(key, value)` action pairs of all configured intents whose key
passes `extract_entities`' substring test, in iteration order. -/
def action_hits (intents_config : List (String × IntentPattern))
    (text : String) : List (String × String) :=
  (intents_config.flatMap (fun ip => ip.2.actions)).filter
    (fun kv => strIn kv.1 (pyLower text))

/-- `NLUEngine.classify_intent` (`nlu.py` lines 57-111). The TF-IDF scoring
machinery is an out-of-scope external collaborator; it is abstracted by:
`has_pattern_vectors` (`self.pattern_vectors` non-empty) and
`vec_similarities`, where `none` models `self.vectorizer.transform([text])`
raising (the caught exception that returns `self._keyword_match(text)`
directly), and `some sims` models success, `sims` being the
`(intent_name, cosine similarity)` pairs produced by the nested loop over
`intent_candidates` and their pattern vectors, in iteration order. -/
def classify_intent (confidence_threshold : ℚ)
    (intents_config : List (String × IntentPattern))
    (use_similarity : Bool) (has_pattern_vectors : Bool)
    (vec_similarities : Option (List (String × ℚ))) (text : String) :
    String × ℚ :=
  if intents_config.isEmpty then ("unknown", 0)
  else if use_similarity && has_pattern_vectors then
    match vec_similarities with
    | none => keyword_match intents_config text
    | some sims =>
        let best := sims.foldl (fun b s => if b.2 < s.2 then s else b)
          ("unknown", 0)
        if best.2 < confidence_threshold then ("unknown", best.2) else best
  else
    let best := keyword_match intents_config text
    if best.2 < confidence_threshold then ("unknown", best.2) else best

/-- `VoiceCommandProcessor.process_text` (`processor.py` lines 159-236). The
collaborator calls guarded by `try/except` blocks are abstract
`Except`-valued functions — `classify` (`self.nlu.classify_intent`),
`extract` (`self.nlu.extract_entities`) and `mapCmd`
(`self.mapper.map_intent_to_command`) — where `.error` models a raised
exception caught by the corresponding `except` block. -/
def process_text (classify : String → Except String (String × ℚ))
    (extract : String → Except String (List (String × String)))
    (mapCmd : String → ℚ → List (String × String) → String →
      Except String (List (String × JVal)))
    (authorized_intents : List String) (text : String) (min_confidence : ℚ) :
    List (String × JVal) :=
  match classify text with
  | .error e =>
      [("status", JVal.str "error"),
       ("error", JVal.str ("Intent classification failed: " ++ e)),
       ("stage", JVal.str "nlu")]
  | .ok ic =>
      let entities := match extract text with
        | .error _ => []
        | .ok es => es
      if !(is_authorized authorized_intents ic.1 ic.2 min_confidence) then
        [("status", JVal.str "rejected"),
         ("reason", JVal.str "Authorization failed"),
         ("intent", JVal.str ic.1),
         ("confidence", JVal.num (round3 ic.2)),
         ("transcribed_text", JVal.str text)]
      else
        match mapCmd ic.1 ic.2 entities text with
        | .error e =>
            [("status", JVal.str "error"),
             ("error", JVal.str ("Command mapping failed: " ++ e)),
             ("stage", JVal.str "mapper")]
        | .ok command =>
            if !(validate_command command) then
              [("status", JVal.str "error"),
               ("error", JVal.str "Command validation failed"),
               ("stage", JVal.str "validation")]
            else
              [("status", JVal.str "success"),
               ("command", JVal.obj command),
               ("transcribed_text", JVal.str text),
               ("intent", JVal.str ic.1),
               ("confidence", JVal.num (round3 ic.2))]

/-- A heap of string-to-string dictionaries, modelling Python object identity
for the mutable `parameters` dicts owned by the command templates. Addresses
are indices; allocation appends. -/
abbrev Store := List (List (String × String))

/-- Read the dict object at address `a`. -/
def storeGet (σ : Store) (a : Nat) : List (String × String) := σ.getD a []

/-- Allocate a fresh dict object holding `d`; returns the new store and the
fresh address. -/
def storeAlloc (σ : Store) (d : List (String × String)) : Store × Nat :=
  (σ ++ [d], σ.length)

/-- Mutate the dict object at address `a` in place. -/
def storeSet (σ : Store) (a : Nat) (d : List (String × String)) : Store :=
  σ.set a d

/-- A `CommandMapping` whose mutable `parameters` dict lives in the store. -/
structure CommandMappingH where
  intent : String
  command_type : String
  paramsAddr : Nat
  description : String

/-- Heap-level `CommandMapper._merge_parameters` (`mapper.py` lines 63-79):
`merged = base_params.copy()` allocates a fresh dict holding a copy of the
base contents, and `merged.update(entity_params)` mutates only that fresh
dict. -/
def merge_parametersH (σ : Store) (baseAddr : Nat)
    (entity_params : List (String × String)) : Store × Nat :=
  let alloc := storeAlloc σ (storeGet σ baseAddr)
  let σ₂ := storeSet alloc.1 alloc.2
    (dictUpdate (storeGet alloc.1 alloc.2) entity_params)
  (σ₂, alloc.2)

/-- Heap-level `CommandMapper.map_intent_to_command`: same as
`map_intent_to_command`, except each template's base `parameters` dict is an
address into the store, so that mutation of the template table is
observable. -/
def map_intent_to_commandH (σ : Store)
    (commands_config : List (String × CommandMappingH)) (intent : String)
    (confidence : ℚ) (entities : List (String × String))
    (transcribed_text now : String) : Store × List (String × JVal) :=
  match dictGet commands_config intent with
  | none => (σ, create_error_response intent confidence transcribed_text now)
  | some cm =>
      let merged := merge_parametersH σ cm.paramsAddr entities
      (merged.1,
       [("timestamp", JVal.str now),
        ("command_type", JVal.str cm.command_type),
        ("intent", JVal.str intent),
        ("confidence", JVal.num (round3 confidence)),
        ("transcribed_text", JVal.str transcribed_text),
        ("parameters", JVal.obj
          ((storeGet merged.1 merged.2).map (fun p => (p.1, JVal.str p.2)))),
        ("description", JVal.str cm.description),
        ("status", JVal.str "authorized")])

-- ### Theorems

theorem dictGet_append (a b : List (String × α)) (k : String) :
    dictGet (a ++ b) k =
      match dictGet a k with
      | some v => some v
      | none => dictGet b k := by
  induction a with
  | nil => rfl
  | cons p rest ih => by_cases h : p.1 = k <;> simp [dictGet, h, ih]

theorem dictGet_dictInsert_self (d : List (String × α)) (k : String) (v : α) :
    dictGet (dictInsert d k v) k = some v := by
  induction d with
  | nil => simp [dictInsert, dictGet]
  | cons p rest ih => by_cases h : p.1 = k <;> simp [dictInsert, dictGet, h, ih]

theorem dictGet_dictInsert_ne (d : List (String × α)) (k k' : String) (v : α)
    (h : k' ≠ k) :
    dictGet (dictInsert d k v) k' = dictGet d k' := by
  have hk : ¬ k = k' := fun hh => h hh.symm
  induction d with
  | nil => simp [dictInsert, dictGet, hk]
  | cons p rest ih =>
      by_cases hp : p.1 = k
      · simp [dictInsert, dictGet, hp, hk]
      · by_cases hp' : p.1 = k' <;> simp [dictInsert, dictGet, hp, hp', ih, h]

theorem dictGet_dictUpdate (e d : List (String × α)) (k : String) :
    dictGet (dictUpdate d e) k =
      match dictGet e.reverse k with
      | some v => some v
      | none => dictGet d k := by
  induction e generalizing d with
  | nil => simp [dictUpdate, dictGet]
  | cons p rest ih =>
      have step : dictUpdate d (p :: rest) =
          dictUpdate (dictInsert d p.1 p.2) rest := by
        simp [dictUpdate]
      rw [step, ih, List.reverse_cons, dictGet_append]
      by_cases hk : p.1 = k
      · cases hr : dictGet rest.reverse k <;>
          simp [hr, dictGet, hk, hk ▸ dictGet_dictInsert_self d p.1 p.2]
      · have hk' : k ≠ p.1 := fun hh => hk hh.symm
        cases hr : dictGet rest.reverse k <;>
          simp [hr, dictGet, hk, dictGet_dictInsert_ne d p.1 k p.2 hk']

/-- C2: `is_authorized(i, c, m)` returns true iff `i` is a member of the
authorized-intents list and `c ≥ m`. -/
theorem is_authorized_iff (authorized_intents : List String) (intent : String)
    (confidence min_confidence : ℚ) :
    is_authorized authorized_intents intent confidence min_confidence = true ↔
      intent ∈ authorized_intents ∧ min_confidence ≤ confidence := by
  simp [is_authorized]

/-- C3: for an intent absent from the command table, `map_intent_to_command`
returns (totally, without throwing) a command whose `command_type` is
`"error"`, whose `status` is `"rejected"`, whose `parameters` mapping is
empty, and which carries an explanatory `error` message, regardless of the
confidence and the transcribed text. -/
theorem map_unknown_intent_error (commands_config : List (String × CommandMapping))
    (intent : String) (confidence : ℚ) (entities : List (String × String))
    (transcribed_text now : String)
    (h : dictGet commands_config intent = none) :
    dictGet (map_intent_to_command commands_config intent confidence entities
        transcribed_text now) "command_type" = some (JVal.str "error") ∧
    dictGet (map_intent_to_command commands_config intent confidence entities
        transcribed_text now) "status" = some (JVal.str "rejected") ∧
    dictGet (map_intent_to_command commands_config intent confidence entities
        transcribed_text now) "parameters" = some (JVal.obj []) ∧
    dictGet (map_intent_to_command commands_config intent confidence entities
        transcribed_text now) "error" =
      some (JVal.str ("Unknown intent: " ++ intent)) := by
  unfold map_intent_to_command
  rw [h]
  refine ⟨rfl, rfl, rfl, rfl⟩

/-- C3 witness: the unknown intent `"no_such_intent"` against an empty command
table yields the rejected error command. -/
theorem map_unknown_intent_error_witness :
    dictGet (map_intent_to_command [] "no_such_intent" (1/2) [] "turn it off"
        "t0") "command_type" = some (JVal.str "error") ∧
    dictGet (map_intent_to_command [] "no_such_intent" (1/2) [] "turn it off"
        "t0") "status" = some (JVal.str "rejected") ∧
    dictGet (map_intent_to_command [] "no_such_intent" (1/2) [] "turn it off"
        "t0") "parameters" = some (JVal.obj []) ∧
    dictGet (map_intent_to_command [] "no_such_intent" (1/2) [] "turn it off"
        "t0") "error" =
      some (JVal.str ("Unknown intent: " ++ "no_such_intent")) :=
  map_unknown_intent_error [] "no_such_intent" (1/2) [] "turn it off" "t0" rfl

theorem dictGet_eq_none_iff (d : List (String × α)) (k : String) :
    dictGet d k = none ↔ k ∉ d.map Prod.fst := by
  induction d with
  | nil => simp [dictGet]
  | cons p rest ih =>
      by_cases h : p.1 = k
      · simp [dictGet, h]
      · have h' : ¬ k = p.1 := fun hh => h hh.symm
        simp [dictGet, h, h', ih]

theorem dictGet_reverse_of_nodup (d : List (String × α)) (k : String)
    (hd : (d.map Prod.fst).Nodup) :
    dictGet d.reverse k = dictGet d k := by
  induction d with
  | nil => rfl
  | cons p rest ih =>
      rw [List.reverse_cons, dictGet_append]
      simp only [List.map_cons, List.nodup_cons] at hd
      by_cases h : p.1 = k
      · have hrest : dictGet rest k = none :=
          (dictGet_eq_none_iff rest k).mpr (h ▸ hd.1)
        have hrev : dictGet rest.reverse k = none := by
          rw [dictGet_eq_none_iff]
          intro hmem
          exact (h ▸ hd.1) (by simpa using hmem)
        simp [hrev, hrest, dictGet, h]
      · rw [ih hd.2]
        cases hr : dictGet rest k <;> simp [hr, dictGet, h]

/-- C8: the merged parameters equal the base mapping overlaid with the entity
mapping: every key of the entity mapping maps to its entity value, and every
key absent from the entity mapping keeps its base value. -/
theorem merge_parameters_overlay (base_params entity_params : List (String × String))
    (hE : (entity_params.map Prod.fst).Nodup) :
    (∀ k v, dictGet entity_params k = some v →
      dictGet (merge_parameters base_params entity_params) k = some v) ∧
    (∀ k, dictGet entity_params k = none →
      dictGet (merge_parameters base_params entity_params) k =
        dictGet base_params k) := by
  constructor
  · intro k v hv
    rw [merge_parameters, dictGet_dictUpdate, dictGet_reverse_of_nodup _ _ hE, hv]
  · intro k hk
    rw [merge_parameters, dictGet_dictUpdate, dictGet_reverse_of_nodup _ _ hE, hk]

/-- C8 witness: base `{a:1, b:2}` with entities `{b:3, c:4}` yields
`{a:1, b:3, c:4}`: the entity value wins on `b`, the base value survives on
`a`, and the fresh entity key `c` is present. -/
theorem merge_parameters_overlay_witness :
    dictGet (merge_parameters [("a", "1"), ("b", "2")] [("b", "3"), ("c", "4")])
        "b" = some "3" ∧
    dictGet (merge_parameters [("a", "1"), ("b", "2")] [("b", "3"), ("c", "4")])
        "c" = some "4" ∧
    dictGet (merge_parameters [("a", "1"), ("b", "2")] [("b", "3"), ("c", "4")])
        "a" = some "1" :=
  ⟨(merge_parameters_overlay [("a", "1"), ("b", "2")] [("b", "3"), ("c", "4")]
      (by decide)).1 "b" "3" rfl,
   (merge_parameters_overlay [("a", "1"), ("b", "2")] [("b", "3"), ("c", "4")]
      (by decide)).1 "c" "4" rfl,
   (merge_parameters_overlay [("a", "1"), ("b", "2")] [("b", "3"), ("c", "4")]
      (by decide)).2 "a" rfl⟩

theorem roundHalfEven_bounds (q : ℚ) :
    ⌊q⌋ ≤ roundHalfEven q ∧ roundHalfEven q ≤ ⌈q⌉ := by
  have hceil : q - ⌊q⌋ ≥ 1/2 → ⌊q⌋ + 1 ≤ ⌈q⌉ := by
    intro hfrac
    have hlt : (⌊q⌋ : ℚ) < q := by linarith
    exact Int.add_one_le_iff.mpr (Int.lt_ceil.mpr hlt)
  unfold roundHalfEven
  split
  · exact ⟨le_refl _, Int.floor_le_ceil q⟩
  · next h1 =>
      split
      · next h2 => exact ⟨by omega, hceil (by linarith)⟩
      · split <;> constructor
        · omega
        · exact le_trans (by omega) (Int.floor_le_ceil q)
        · omega
        · exact hceil (by linarith)

theorem round3_bounds (q : ℚ) (h0 : 0 ≤ q) (h1 : q ≤ 1) :
    0 ≤ round3 q ∧ round3 q ≤ 1 := by
  have hb := roundHalfEven_bounds (1000 * q)
  have hlo : (0 : ℤ) ≤ roundHalfEven (1000 * q) := by
    refine le_trans ?_ hb.1
    exact Int.le_floor.mpr (by push_cast; linarith)
  have hhi : roundHalfEven (1000 * q) ≤ 1000 := by
    refine le_trans hb.2 ?_
    exact Int.ceil_le.mpr (by push_cast; linarith)
  unfold round3
  constructor
  · apply div_nonneg _ (by norm_num)
    exact_mod_cast hlo
  · rw [div_le_one (by norm_num)]
    exact_mod_cast hhi

/-- C10: for an intent present in the command table and a confidence in
`[0, 1]`, `validate_command` accepts the command produced by
`map_intent_to_command` for any entities and transcribed text, so the
orchestrator's stage-"validation" error branch is unreachable on the
successful mapping path. -/
theorem validate_mapped_command (commands_config : List (String × CommandMapping))
    (intent : String) (cm : CommandMapping) (confidence : ℚ)
    (entities : List (String × String)) (transcribed_text now : String)
    (hin : dictGet commands_config intent = some cm)
    (h0 : 0 ≤ confidence) (h1 : confidence ≤ 1) :
    validate_command (map_intent_to_command commands_config intent confidence
      entities transcribed_text now) = true := by
  have hb := round3_bounds confidence h0 h1
  unfold map_intent_to_command
  rw [hin]
  simp [validate_command, dictGet, hb.1, hb.2]

/-- C10 witness: a one-entry command table, intent `"stop_tracking"` and
confidence `1/2` produce a command that `validate_command` accepts. -/
theorem validate_mapped_command_witness :
    validate_command (map_intent_to_command
      [("stop_tracking",
        ⟨"stop_tracking", "tracking_control", [("action", "stop")], "Stop tracking"⟩)]
      "stop_tracking" (1/2) [("mode", "fast")] "stop tracking" "t0") = true :=
  validate_mapped_command
    [("stop_tracking",
      ⟨"stop_tracking", "tracking_control", [("action", "stop")], "Stop tracking"⟩)]
    "stop_tracking"
    ⟨"stop_tracking", "tracking_control", [("action", "stop")], "Stop tracking"⟩
    (1/2) [("mode", "fast")] "stop tracking" "t0" rfl (by norm_num) (by norm_num)

/-- C9: `map_intent_to_command` never mutates the command-template table:
every dict object already in the store before the call — in particular every
template's base `parameters` dict — is unchanged afterwards, because the merge
copies the base parameters into a freshly allocated dict before overlaying the
entities. (Template fields other than the heap-allocated `parameters` dict are
immutable values in the model.) -/
theorem map_intent_to_command_preserves_store (σ : Store)
    (commands_config : List (String × CommandMappingH)) (intent : String)
    (confidence : ℚ) (entities : List (String × String))
    (transcribed_text now : String) (a : Nat) (ha : a < σ.length) :
    storeGet (map_intent_to_commandH σ commands_config intent confidence
      entities transcribed_text now).1 a = storeGet σ a := by
  unfold map_intent_to_commandH
  cases hdg : dictGet commands_config intent with
  | none => rfl
  | some cm =>
      simp only [merge_parametersH, storeAlloc, storeSet, storeGet]
      have hne : σ.length ≠ a := Ne.symm (Nat.ne_of_lt ha)
      simp only [List.getD_eq_getElem?_getD]
      rw [List.getElem?_set_ne hne, List.getElem?_append_left ha]

/-- C9 witness: mapping with a template whose base parameters live at address
0 leaves the dict at address 0 unchanged. -/
theorem map_intent_to_command_preserves_store_witness :
    storeGet (map_intent_to_commandH [[("action", "stop")]]
      [("stop_tracking", ⟨"stop_tracking", "tracking_control", 0, "Stop"⟩)]
      "stop_tracking" (9/10) [("action", "start"), ("mode", "fast")]
      "stop tracking" "t0").1 0 = storeGet [[("action", "stop")]] 0 :=
  map_intent_to_command_preserves_store [[("action", "stop")]]
    [("stop_tracking", ⟨"stop_tracking", "tracking_control", 0, "Stop"⟩)]
    "stop_tracking" (9/10) [("action", "start"), ("mode", "fast")]
    "stop tracking" "t0" 0 (by decide)

/-- C1: for every behaviour of the classification, extraction and mapping
collaborators and every configuration and input, `process_text` is total
(never raises) and returns one dictionary whose `status` is `"success"`,
`"rejected"` or `"error"`: no stage failure escapes the orchestrator. -/
theorem process_text_status_total (classify : String → Except String (String × ℚ))
    (extract : String → Except String (List (String × String)))
    (mapCmd : String → ℚ → List (String × String) → String →
      Except String (List (String × JVal)))
    (authorized_intents : List String) (text : String) (min_confidence : ℚ) :
    dictGet (process_text classify extract mapCmd authorized_intents text
        min_confidence) "status" = some (JVal.str "success") ∨
    dictGet (process_text classify extract mapCmd authorized_intents text
        min_confidence) "status" = some (JVal.str "rejected") ∨
    dictGet (process_text classify extract mapCmd authorized_intents text
        min_confidence) "status" = some (JVal.str "error") := by
  unfold process_text
  cases hc : classify text with
  | error e => right; right; rfl
  | ok ic =>
      cases hE : extract text with
      | error e =>
          cases ha : is_authorized authorized_intents ic.1 ic.2 min_confidence
          · right; left; simp [ha, dictGet]
          · cases hm : mapCmd ic.1 ic.2 [] text with
            | error e2 => right; right; simp [ha, hm, dictGet]
            | ok command =>
                cases hv : validate_command command
                · right; right; simp [ha, hm, hv, dictGet]
                · left; simp [ha, hm, hv, dictGet]
      | ok es =>
          cases ha : is_authorized authorized_intents ic.1 ic.2 min_confidence
          · right; left; simp [ha, dictGet]
          · cases hm : mapCmd ic.1 ic.2 es text with
            | error e2 => right; right; simp [ha, hm, dictGet]
            | ok command =>
                cases hv : validate_command command
                · right; right; simp [ha, hm, hv, dictGet]
                · left; simp [ha, hm, hv, dictGet]

/-- C4 counterexample: a rejected `process_text` result carries no `"stage"`
key at all — the claimed `stage = "authorization"` tag is absent (it exists
only in `process_audio`'s rejected result). -/
theorem process_text_rejected_no_stage :
    dictGet (process_text (fun _ => .ok ("set_mode", 9/10)) (fun _ => .ok [])
      (fun _ _ _ _ => .ok []) [] "set mode" (7/10)) "stage" = none ∧
    dictGet (process_text (fun _ => .ok ("set_mode", 9/10)) (fun _ => .ok [])
      (fun _ _ _ _ => .ok []) [] "set mode" (7/10)) "status"
      = some (JVal.str "rejected") := by
  constructor <;> rfl

/-- C4 (amended): whenever classification succeeds and authorization returns
false, `process_text` returns exactly the rejected dictionary carrying reason
"Authorization failed", the classified intent, the confidence rounded to 3
decimals, and the transcribed text — and no `"stage"` field (unlike
`process_audio`, whose rejected result is additionally tagged
`stage = "authorization"`). -/
theorem process_text_rejected_shape (classify : String → Except String (String × ℚ))
    (extract : String → Except String (List (String × String)))
    (mapCmd : String → ℚ → List (String × String) → String →
      Except String (List (String × JVal)))
    (authorized_intents : List String) (text : String) (min_confidence : ℚ)
    (intent : String) (confidence : ℚ)
    (hc : classify text = .ok (intent, confidence))
    (ha : is_authorized authorized_intents intent confidence min_confidence
      = false) :
    process_text classify extract mapCmd authorized_intents text min_confidence =
      [("status", JVal.str "rejected"),
       ("reason", JVal.str "Authorization failed"),
       ("intent", JVal.str intent),
       ("confidence", JVal.num (round3 confidence)),
       ("transcribed_text", JVal.str text)] := by
  unfold process_text
  rw [hc]
  cases hE : extract text <;> simp [ha]

/-- C4 witness: intent `"set_mode"` with confidence `4/5` against an
authorization list not containing it is rejected with the exact
five-field dictionary. -/
theorem process_text_rejected_shape_witness :
    process_text (fun _ => .ok ("set_mode", 4/5)) (fun _ => .ok [])
      (fun _ _ _ _ => .ok []) ["other_intent"] "set mode please" (7/10) =
      [("status", JVal.str "rejected"),
       ("reason", JVal.str "Authorization failed"),
       ("intent", JVal.str "set_mode"),
       ("confidence", JVal.num (round3 (4/5))),
       ("transcribed_text", JVal.str "set mode please")] :=
  process_text_rejected_shape (fun _ => .ok ("set_mode", 4/5)) (fun _ => .ok [])
    (fun _ _ _ _ => .ok []) ["other_intent"] "set mode please" (7/10)
    "set_mode" (4/5) rfl (by decide)

theorem foldl_foldl_flatMap (f : γ → List β) (g : α → β → α) (l : List γ)
    (init : α) :
    l.foldl (fun acc c => (f c).foldl g acc) init = (l.flatMap f).foldl g init := by
  induction l generalizing init with
  | nil => rfl
  | cons c rest ih => simp [List.flatMap_cons, List.foldl_append, ih]

theorem foldl_filter_dictInsert (cond : String × α → Bool)
    (l : List (String × α)) (acc : List (String × α)) :
    l.foldl (fun d kv => if cond kv then dictInsert d kv.1 kv.2 else d) acc =
      dictUpdate acc (l.filter cond) := by
  induction l generalizing acc with
  | nil => rfl
  | cons kv rest ih =>
      by_cases hc : cond kv <;>
        simp [hc, List.filter_cons, ih, dictUpdate, List.foldl_cons]

/-- C5 (amended): `extract_entities` returns exactly the pairs `(key, value)`
such that `key` occurs in some configured intent's `actions` mapping and the
key — as configured, not lower-cased — appears as a substring of the
lower-cased input text; on key collision, the pair scanned later in iteration
order wins. Stated as: lookup in the result agrees with lookup in the
reversed list of matching action pairs, so the present keys are exactly the
matching keys and the last matching value wins. -/
theorem extract_entities_spec (intents_config : List (String × IntentPattern))
    (text : String) (k : String) :
    dictGet (extract_entities intents_config text) k =
      dictGet (action_hits intents_config text).reverse k := by
  simp only [extract_entities, action_hits]
  rw [foldl_foldl_flatMap, foldl_filter_dictInsert, dictGet_dictUpdate]
  cases hr : dictGet ((intents_config.flatMap fun ip => ip.2.actions).filter
      (fun kv => strIn kv.1 (pyLower text))).reverse k <;> simp [hr, dictGet]

/-- C5 counterexample: with the action key `"A"` (upper-case) and the input
text `"a"`, the code extracts nothing — the key is substring-tested as
configured, not lower-cased — while the spec's lower-cased-key reading
extracts the pair. -/
theorem extract_entities_key_case_counterexample :
    extract_entities [("temp", ⟨"temp", ["set temp"], [("A", "v")]⟩)] "a" = [] ∧
    extract_entities_specver [("temp", ⟨"temp", ["set temp"], [("A", "v")]⟩)]
      "a" = [("A", "v")] := by
  constructor <;> rfl

theorem best_step_snd (b s : String × ℚ) :
    ((if b.2 < s.2 then s else b) : String × ℚ).2 = max b.2 s.2 := by
  split
  · next h => exact (max_eq_right (le_of_lt h)).symm
  · next h => exact (max_eq_left (le_of_not_lt h)).symm

theorem foldl_best_snd (l : List (String × ℚ)) :
    ∀ b : String × ℚ,
      (l.foldl (fun b s => if b.2 < s.2 then s else b) b).2 =
        l.foldl (fun m s => max m s.2) b.2 := by
  induction l with
  | nil => intro b; rfl
  | cons x rest ih =>
      intro b
      simp only [List.foldl_cons]
      rw [ih (if b.2 < x.2 then x else b), best_step_snd]

theorem foldl_max_le_init (l : List (String × ℚ)) (m0 : ℚ) :
    m0 ≤ l.foldl (fun m s => max m s.2) m0 := by
  induction l generalizing m0 with
  | nil => exact le_refl m0
  | cons x rest ih =>
      simp only [List.foldl_cons]
      exact le_trans (le_max_left m0 x.2) (ih (max m0 x.2))

theorem foldl_max_ge_mem (l : List (String × ℚ)) :
    ∀ (m0 : ℚ) (s : String × ℚ), s ∈ l →
      s.2 ≤ l.foldl (fun m s => max m s.2) m0 := by
  induction l with
  | nil => intro m0 s hs; simp at hs
  | cons x rest ih =>
      intro m0 s hs
      simp only [List.foldl_cons]
      rcases List.mem_cons.mp hs with hx | hmem
      · rw [hx]
        exact le_trans (le_max_right m0 x.2) (foldl_max_le_init rest (max m0 x.2))
      · exact ih (max m0 x.2) s hmem

theorem foldl_max_eq_init_or_mem (l : List (String × ℚ)) :
    ∀ m0 : ℚ, l.foldl (fun m s => max m s.2) m0 = m0 ∨
      ∃ s ∈ l, l.foldl (fun m s => max m s.2) m0 = s.2 := by
  induction l with
  | nil => intro m0; left; rfl
  | cons x rest ih =>
      intro m0
      simp only [List.foldl_cons]
      rcases ih (max m0 x.2) with h | ⟨s, hs, h⟩
      · rcases max_cases m0 x.2 with ⟨hm, _⟩ | ⟨hm, _⟩
        · left; rw [h, hm]
        · right; exact ⟨x, List.mem_cons_self x rest, by rw [h, hm]⟩
      · right; exact ⟨s, List.mem_cons_of_mem x hs, h⟩

theorem foldl_best_of_le (l : List (String × ℚ)) (b : String × ℚ)
    (h : ∀ s ∈ l, s.2 ≤ b.2) :
    l.foldl (fun b s => if b.2 < s.2 then s else b) b = b := by
  induction l with
  | nil => rfl
  | cons x rest ih =>
      simp only [List.foldl_cons]
      rw [if_neg (not_lt.mpr (h x (List.mem_cons_self x rest)))]
      exact ih (fun s hs => h s (List.mem_cons_of_mem x hs))

theorem foldl_elems_le (l : List (String × ℚ)) (b : String × ℚ)
    (s : String × ℚ) (hs : s ∈ l) :
    s.2 ≤ (l.foldl (fun b s => if b.2 < s.2 then s else b) b).2 := by
  rw [foldl_best_snd]
  exact foldl_max_ge_mem l b.2 s hs

theorem foldl_best_find (l : List (String × ℚ)) :
    ∀ b : String × ℚ, (∃ s ∈ l, b.2 < s.2) →
      l.find? (fun s =>
          s.2 == (l.foldl (fun b s => if b.2 < s.2 then s else b) b).2)
        = some (l.foldl (fun b s => if b.2 < s.2 then s else b) b) := by
  induction l with
  | nil => intro b hb; obtain ⟨s, hs, _⟩ := hb; simp at hs
  | cons x rest ih =>
      intro b hb
      simp only [List.foldl_cons]
      by_cases hx : b.2 < x.2
      · rw [if_pos hx]
        by_cases hrest : ∃ s ∈ rest, x.2 < s.2
        · have hlt : x.2 <
              (rest.foldl (fun b s => if b.2 < s.2 then s else b) x).2 := by
            obtain ⟨s, hs, hxs⟩ := hrest
            exact lt_of_lt_of_le hxs (foldl_elems_le rest x s hs)
          rw [List.find?_cons_of_neg]
          · exact ih x hrest
          · simp [ne_of_lt hlt]
        · push_neg at hrest
          rw [foldl_best_of_le rest x hrest]
          exact List.find?_cons_of_pos _ (by simp)
      · rw [if_neg hx]
        obtain ⟨s, hs, hbs⟩ := hb
        rcases List.mem_cons.mp hs with hsx | hsrest
        · exact absurd (hsx ▸ hbs) hx
        · have hlt : x.2 <
              (rest.foldl (fun b s => if b.2 < s.2 then s else b) b).2 :=
            lt_of_le_of_lt (not_lt.mp hx)
              (lt_of_lt_of_le hbs (foldl_elems_le rest b s hsrest))
          rw [List.find?_cons_of_neg]
          · exact ih b ⟨s, hsrest, hbs⟩
          · simp [ne_of_lt hlt]

theorem keyword_match_eq_fold (intents_config : List (String × IntentPattern))
    (text : String) :
    keyword_match intents_config text =
      (((flat_scores intents_config text).foldl
          (fun b s => if b.2 < s.2 then s else b) ("unknown", 0)).1,
       min (((flat_scores intents_config text).foldl
          (fun b s => if b.2 < s.2 then s else b) ("unknown", 0)).2) 1) := by
  unfold keyword_match flat_scores
  rw [← foldl_foldl_flatMap]
  simp only [List.foldl_map]

/-- C7 (amended): `_keyword_match` returns as its score the maximum over all
patterns of `|words(text) ∩ words(pattern)| / max(|words(pattern)|, 1)`,
clamped to at most 1.0; when the maximum is positive, the returned intent is
the one owning the first pattern attaining the maximum in configuration
iteration order (deterministically — the model is a pure function); but when
the maximum is 0 the sentinel `"unknown"` is returned rather than any
pattern's intent, because the loop only updates on strict improvement over
the initial score 0.0. -/
theorem keyword_match_max_spec (intents_config : List (String × IntentPattern))
    (text : String) :
    (keyword_match intents_config text).2 =
      min (max_flat_score intents_config text) 1 ∧
    (0 < max_flat_score intents_config text →
      ∃ p, (flat_scores intents_config text).find?
          (fun s => s.2 == max_flat_score intents_config text) = some p ∧
        (keyword_match intents_config text).1 = p.1) ∧
    (max_flat_score intents_config text = 0 →
      (keyword_match intents_config text).1 = "unknown") := by
  simp only [max_flat_score]
  have hkw := keyword_match_eq_fold intents_config text
  have hM : ((flat_scores intents_config text).foldl
      (fun b s => if b.2 < s.2 then s else b) ("unknown", 0)).2 =
      (flat_scores intents_config text).foldl (fun m s => max m s.2) 0 :=
    foldl_best_snd (flat_scores intents_config text) ("unknown", 0)
  refine ⟨?_, ?_, ?_⟩
  · rw [hkw, ← hM]
  · intro hpos
    rcases foldl_max_eq_init_or_mem (flat_scores intents_config text) 0
      with h0 | ⟨s, hs, hM2⟩
    · rw [h0] at hpos
      exact absurd hpos (lt_irrefl 0)
    · have hex : ∃ t ∈ flat_scores intents_config text,
          (("unknown", (0 : ℚ)) : String × ℚ).2 < t.2 :=
        ⟨s, hs, by rw [hM2] at hpos; exact hpos⟩
      have hfind := foldl_best_find (flat_scores intents_config text)
        ("unknown", 0) hex
      refine ⟨(flat_scores intents_config text).foldl
          (fun b s => if b.2 < s.2 then s else b) ("unknown", 0), ?_, ?_⟩
      · rw [← hM]
        exact hfind
      · rw [hkw]
  · intro h0
    have hall : ∀ s ∈ flat_scores intents_config text,
        s.2 ≤ (("unknown", (0 : ℚ)) : String × ℚ).2 := by
      intro s hs
      have hle := foldl_max_ge_mem (flat_scores intents_config text) 0 s hs
      rw [h0] at hle
      exact hle
    have hB := foldl_best_of_le (flat_scores intents_config text)
      ("unknown", 0) hall
    rw [hkw, hB]

theorem kw_hello_eval :
    keyword_match [("greet", ⟨"greet", ["hello there friend"], []⟩)]
      "hello stranger" = ("greet", 1/3) := by
  have hov : overlap_score (pyLower "hello stranger") "hello there friend"
      = 1/3 := by
    simp only [overlap_score]
    rw [show setInterCard (pySplit (pyLower "hello stranger"))
        (pySplit (pyLower "hello there friend")) = 1 from rfl]
    rw [show max (setCard (pySplit (pyLower "hello there friend"))) 1 = 3
        from rfl]
    norm_num
  rw [keyword_match_eq_fold]
  rw [show flat_scores [("greet", ⟨"greet", ["hello there friend"], []⟩)]
      "hello stranger"
      = [("greet",
          overlap_score (pyLower "hello stranger") "hello there friend")]
      from rfl]
  rw [hov]
  simp only [List.foldl_cons, List.foldl_nil]
  rw [if_pos (by norm_num : (("unknown", (0 : ℚ)) : String × ℚ).2 < 1/3)]
  rw [show ((("greet", (1 : ℚ)/3) : String × ℚ).1,
      min ((("greet", (1 : ℚ)/3) : String × ℚ).2) 1)
      = ("greet", min ((1 : ℚ)/3) 1) from rfl]
  rw [min_eq_left (by norm_num : (1 : ℚ)/3 ≤ 1)]

/-- C6 counterexample: with threshold 0.7 and an input that is scored by the
exception-path keyword fallback (`vec_similarities = none`, the vectorizer
raised), the sub-threshold best score 1/3 is returned with intent `"greet"`,
not `"unknown"`: the threshold post-check is bypassed on this path. -/
theorem classify_bypass_counterexample :
    classify_intent (7/10) [("greet", ⟨"greet", ["hello there friend"], []⟩)]
      true true none "hello stranger" = ("greet", 1/3) ∧
    (1/3 : ℚ) < 7/10 := by
  constructor
  · show keyword_match [("greet", ⟨"greet", ["hello there friend"], []⟩)]
      "hello stranger" = ("greet", 1/3)
    exact kw_hello_eval
  · norm_num

/-- C6 (amended): on the classification paths that reach the threshold
post-check — the primary similarity path with a successfully vectorized
input, and the keyword path taken because similarity is disabled or no
pattern vectors exist — a best score strictly below the configured threshold
makes `classify_intent` return the intent `"unknown"` with the numeric best
score preserved (not zeroed). When the keyword fallback is instead entered
because vectorizing the input raised, its result is returned directly,
bypassing the post-check (see the counterexample). -/
theorem classify_low_confidence_unknown (confidence_threshold : ℚ)
    (intents_config : List (String × IntentPattern)) (text : String)
    (hne : intents_config ≠ []) :
    (∀ sims : List (String × ℚ),
      (sims.foldl (fun b s => if b.2 < s.2 then s else b) ("unknown", 0)).2
          < confidence_threshold →
      classify_intent confidence_threshold intents_config true true (some sims)
          text
        = ("unknown",
           (sims.foldl (fun b s => if b.2 < s.2 then s else b)
             ("unknown", 0)).2)) ∧
    (∀ (use_similarity has_pattern_vectors : Bool)
        (vec_similarities : Option (List (String × ℚ))),
      (use_similarity && has_pattern_vectors) = false →
      (keyword_match intents_config text).2 < confidence_threshold →
      classify_intent confidence_threshold intents_config use_similarity
          has_pattern_vectors vec_similarities text
        = ("unknown", (keyword_match intents_config text).2)) := by
  have hempty : intents_config.isEmpty = false := by simpa using hne
  constructor
  · intro sims hlt
    simp [classify_intent, hempty, hlt]
  · intro use_similarity has_pattern_vectors vec_similarities hfalse hlt
    simp [classify_intent, hempty, hfalse, hlt]

/-- C6 witness: with similarity disabled, the keyword best score 1/3 is below
the threshold 0.7 and the post-check fires: the result is
`("unknown", 1/3)` with the confidence preserved. -/
theorem classify_low_confidence_unknown_witness :
    classify_intent (7/10) [("greet", ⟨"greet", ["hello there friend"], []⟩)]
      false false none "hello stranger" = ("unknown", 1/3) := by
  have h := (classify_low_confidence_unknown (7/10)
    [("greet", ⟨"greet", ["hello there friend"], []⟩)] "hello stranger"
    (List.cons_ne_nil _ _)).2 false false none rfl
    (by rw [kw_hello_eval]; norm_num)
  rw [h, kw_hello_eval]

/-- C7 counterexample: with the single pattern `"hello"` and input `"zzz"`,
the maximum overlap score is 0, attained (first) by the pattern of intent
`"greet"`, yet `_keyword_match` returns the sentinel `"unknown"` rather than
attributing the maximum to that pattern's intent. -/
theorem keyword_match_zero_counterexample :
    keyword_match [("greet", ⟨"greet", ["hello"], []⟩)] "zzz"
      = ("unknown", 0) ∧
    (flat_scores [("greet", ⟨"greet", ["hello"], []⟩)] "zzz").find?
      (fun s => s.2 == max_flat_score [("greet", ⟨"greet", ["hello"], []⟩)]
        "zzz") = some ("greet", 0) ∧
    ("greet" : String) ≠ "unknown" := by
  have hov : overlap_score (pyLower "zzz") "hello" = 0 := by
    simp only [overlap_score]
    rw [show setInterCard (pySplit (pyLower "zzz")) (pySplit (pyLower "hello"))
        = 0 from rfl]
    norm_num
  have hflat : flat_scores [("greet", ⟨"greet", ["hello"], []⟩)] "zzz"
      = [("greet", overlap_score (pyLower "zzz") "hello")] := rfl
  have hM : max_flat_score [("greet", ⟨"greet", ["hello"], []⟩)] "zzz" = 0 := by
    simp only [max_flat_score, hflat, hov, List.foldl_cons, List.foldl_nil]
    norm_num
  refine ⟨?_, ?_, by decide⟩
  · rw [keyword_match_eq_fold, hflat, hov]
    simp only [List.foldl_cons, List.foldl_nil]
    rw [if_neg (by norm_num : ¬ (("unknown", (0 : ℚ)) : String × ℚ).2 < 0)]
    show ("unknown", min (0 : ℚ) 1) = ("unknown", 0)
    rw [min_eq_left (by norm_num : (0 : ℚ) ≤ 1)]
  · rw [hflat, hov, hM]
    exact List.find?_cons_of_pos _ (by simp)

/-- C7 witness: two intents whose patterns both score the maximum 1 on input
`"x"`: the tie is broken towards `"a"`, whose pattern occurs first in
configuration iteration order. -/
theorem keyword_match_max_spec_witness :
    0 < max_flat_score [("a", ⟨"a", ["x"], []⟩), ("b", ⟨"b", ["x"], []⟩)] "x" ∧
    (keyword_match [("a", ⟨"a", ["x"], []⟩), ("b", ⟨"b", ["x"], []⟩)] "x").1
      = "a" := by
  have hov : overlap_score (pyLower "x") "x" = 1 := by
    simp only [overlap_score]
    rw [show setInterCard (pySplit (pyLower "x")) (pySplit (pyLower "x")) = 1
        from rfl]
    rw [show max (setCard (pySplit (pyLower "x"))) 1 = 1 from rfl]
    norm_num
  have hflat : flat_scores [("a", ⟨"a", ["x"], []⟩), ("b", ⟨"b", ["x"], []⟩)] "x"
      = [("a", overlap_score (pyLower "x") "x"),
         ("b", overlap_score (pyLower "x") "x")] := rfl
  have hM : max_flat_score [("a", ⟨"a", ["x"], []⟩), ("b", ⟨"b", ["x"], []⟩)] "x"
      = 1 := by
    simp only [max_flat_score, hflat, hov, List.foldl_cons, List.foldl_nil]
    norm_num
  have hpos : 0 < max_flat_score
      [("a", ⟨"a", ["x"], []⟩), ("b", ⟨"b", ["x"], []⟩)] "x" := by
    rw [hM]
    norm_num
  refine ⟨hpos, ?_⟩
  obtain ⟨p, hp, h1⟩ := (keyword_match_max_spec
    [("a", ⟨"a", ["x"], []⟩), ("b", ⟨"b", ["x"], []⟩)] "x").2.1 hpos
  have hfind : (flat_scores [("a", ⟨"a", ["x"], []⟩), ("b", ⟨"b", ["x"], []⟩)]
      "x").find? (fun s => s.2 == max_flat_score
        [("a", ⟨"a", ["x"], []⟩), ("b", ⟨"b", ["x"], []⟩)] "x")
      = some ("a", 1) := by
    rw [hflat, hov, hM]
    exact List.find?_cons_of_pos _ (by simp)
  rw [hfind] at hp
  have hpa := Option.some.inj hp
  rw [h1, ← hpa]

end VoiceCmd
